import Mathlib

/-!
Verification of the charithe/sentiment service (Go) against its
natural-language specification.

The development shallowly embeds the core of the repository:
  * the result shaper (`processAPIResult` in both source variants),
    including a faithful model of Go 1.10's unstable `sort.Sort`
    (the Dockerfile pins `golang:1.10-alpine`),
  * the key normalizer (`strings.ToLower(strings.TrimSpace(input))`),
  * the pipeline orchestrator (`ProcessSentiment` / `Handle`) with the
    cache, codec and remote provider abstracted as function parameters,
    recording the effects (provider calls, cache gets/sets) it performs.

Go `float32` sentiment scores are modelled as rationals: the code only
ever compares scores with `<` / `>`, and comparison of (non-NaN) floats
agrees with the order of the rational values they denote.
-/

/-- Go `SortOrder` enum (`Ascending`/`Descending`). -/
inductive SortOrder where
  | Ascending
  | Descending
deriving DecidableEq, Repr

/-- One element of `languagepb.AnalyzeSentimentResponse.Sentences`:
the text span content and the sentiment score. -/
structure Sentence where
  text : String
  score : ℚ
deriving DecidableEq, Repr

/-- `languagepb.AnalyzeSentimentResponse` restricted to the field the
service reads (`Sentences`). -/
structure AnalyzeSentimentResponse where
  sentences : List Sentence
deriving DecidableEq, Repr

/-- Go `Response = []map[string]float32`; every map the code builds has
exactly one key, so an element is modelled as a text/score pair. -/
abbrev Response := List (String × ℚ)

/-- Errors visible to the pipeline: the two context errors that
`ctx.Err()` can return, and an opaque remote-provider error. -/
inductive GoErr where
  | canceled
  | deadlineExceeded
  | providerFailure (msg : String)
deriving DecidableEq, Repr

/-- The caller's `context.Context`, observed at the two points where the
code calls `ctx.Err()`: on entry to `ProcessSentiment` and on entry to
`processAPIResult` (after the cache hit or the remote call completed).
`none` means the context is live at that observation point. -/
structure Ctx where
  errAtStart : Option GoErr
  errAtShape : Option GoErr
deriving DecidableEq, Repr

/-! ## Slice primitives

Go's `sort.Sort` works on a slice through `Len`/`Less`/`Swap`. The
slice is modelled as a `List Sentence`; reads out of range never happen
in runs the theorems talk about, and are given a default element to
keep every definition total and executable. -/

def dfltSentence : Sentence := ⟨"", 0⟩

/-- Read element `i` of the slice. -/
def lget (xs : List Sentence) (i : Nat) : Sentence := xs.getD i dfltSentence

/-- `data.Swap(i, j)`. -/
def lswap (xs : List Sentence) (i j : Nat) : List Sentence :=
  (xs.set i (lget xs j)).set j (lget xs i)

/-- `byScoreAsc.Less`: `b[i].Sentiment.Score < b[j].Sentiment.Score`. -/
def lessAsc (x y : Sentence) : Bool := decide (x.score < y.score)

/-- `byScoreDesc.Less`: `b[i].Sentiment.Score > b[j].Sentiment.Score`. -/
def lessDesc (x y : Sentence) : Bool := decide (x.score > y.score)

/-! ## Go 1.10 `sort.Sort`

A faithful translation of `sort.go` from the Go 1.10 standard library
(the version the repository's Dockerfile builds with): `insertionSort`,
the shell-sort gap-6 pass, `siftDown`/`heapSort`, `medianOfThree`,
`doPivot` and `quickSort`. Each Go loop becomes a recursive function. -/

/-- Inner loop of `insertionSort`:
`for j := i; j > a && data.Less(j, j-1); j-- { data.Swap(j, j-1) }`
(structural recursion on `j`, the loop's decreasing measure). -/
def insInner (less : Sentence → Sentence → Bool) :
    List Sentence → Nat → Nat → List Sentence
  | xs, _, 0 => xs
  | xs, a, j + 1 =>
    if a < j + 1 ∧ less (lget xs (j + 1)) (lget xs j) then
      insInner less (lswap xs (j + 1) j) a j
    else xs

/-- Outer loop of `insertionSort`: `for i := a + 1; i < b; i++`. The
first argument counts the remaining loop checks (`b - i` at entry, so
it never runs out before the loop guard fails). -/
def insOuter (less : Sentence → Sentence → Bool) :
    Nat → List Sentence → Nat → Nat → Nat → List Sentence
  | 0, xs, _, _, _ => xs
  | fuel + 1, xs, a, b, i =>
    if i < b then insOuter less fuel (insInner less xs a i) a b (i + 1) else xs

/-- `func insertionSort(data Interface, a, b int)`. -/
def insertionSortGo (less : Sentence → Sentence → Bool) (xs : List Sentence) (a b : Nat) :
    List Sentence :=
  insOuter less (b - a) xs a b (a + 1)

/-- The shell-sort pass of `quickSort` for short ranges:
`for i := a + 6; i < b; i++ { if data.Less(i, i-6) { data.Swap(i, i-6) } }`.
The first argument counts the remaining loop checks (`b - a` at the
call site, enough since the loop starts at `i = a + 6`). -/
def shellPass (less : Sentence → Sentence → Bool) :
    Nat → List Sentence → Nat → Nat → List Sentence
  | 0, xs, _, _ => xs
  | fuel + 1, xs, b, i =>
    if i < b then
      shellPass less fuel
        (if less (lget xs i) (lget xs (i - 6)) then lswap xs i (i - 6) else xs) b (i + 1)
    else xs

/-- `func siftDown(data Interface, lo, hi, first int)`; `root` is the
loop variable starting at `lo`. -/
def siftDownLoop (less : Sentence → Sentence → Bool) (xs : List Sentence)
    (hi first root : Nat) : List Sentence :=
  if h : 2 * root + 1 < hi then
    if h2 : 2 * root + 2 < hi ∧
        less (lget xs (first + (2 * root + 1))) (lget xs (first + (2 * root + 2))) then
      if less (lget xs (first + root)) (lget xs (first + (2 * root + 2))) then
        siftDownLoop less (lswap xs (first + root) (first + (2 * root + 2))) hi first
          (2 * root + 2)
      else xs
    else
      if less (lget xs (first + root)) (lget xs (first + (2 * root + 1))) then
        siftDownLoop less (lswap xs (first + root) (first + (2 * root + 1))) hi first
          (2 * root + 1)
      else xs
  else xs
termination_by hi - root
decreasing_by
  · omega
  · omega

/-- First loop of `heapSort` (build heap): runs `siftDown` for roots
`i, i-1, ..., 0`. -/
def heapBuild (less : Sentence → Sentence → Bool) (xs : List Sentence)
    (hi first : Nat) : Nat → List Sentence
  | 0 => siftDownLoop less xs hi first 0
  | i + 1 => heapBuild less (siftDownLoop less xs hi first (i + 1)) hi first i

/-- Second loop of `heapSort` (pop elements): for `i = hi-1, ..., 0`,
`data.Swap(first, first+i); siftDown(data, lo, i, first)`. -/
def heapPop (less : Sentence → Sentence → Bool) (xs : List Sentence)
    (first : Nat) : Nat → List Sentence
  | 0 => siftDownLoop less (lswap xs first first) 0 first 0
  | i + 1 =>
      heapPop less (siftDownLoop less (lswap xs first (first + (i + 1))) (i + 1) first 0)
        first i

/-- `func heapSort(data Interface, a, b int)`. -/
def heapSortGo (less : Sentence → Sentence → Bool) (xs : List Sentence) (a b : Nat) :
    List Sentence :=
  let hi := b - a
  let xs1 := heapBuild less xs hi a ((hi - 1) / 2)
  if hi = 0 then xs1 else heapPop less xs1 a (hi - 1)

/-- `func medianOfThree(data Interface, m1, m0, m2 int)`. -/
def medianOfThree (less : Sentence → Sentence → Bool) (xs : List Sentence)
    (m1 m0 m2 : Nat) : List Sentence :=
  let xs := if less (lget xs m1) (lget xs m0) then lswap xs m1 m0 else xs
  if less (lget xs m2) (lget xs m1) then
    let xs := lswap xs m2 m1
    if less (lget xs m1) (lget xs m0) then lswap xs m1 m0 else xs
  else xs

/-- `doPivot` scan: `for ; a < c && data.Less(a, pivot); a++`. -/
def dpScanA (less : Sentence → Sentence → Bool) (xs : List Sentence)
    (pivot c a : Nat) : Nat :=
  if h : a < c ∧ less (lget xs a) (lget xs pivot) then dpScanA less xs pivot c (a + 1)
  else a
termination_by c - a
decreasing_by omega

/-- `doPivot` scan: `for ; b < c && !data.Less(pivot, b); b++`. -/
def dpScanB (less : Sentence → Sentence → Bool) (xs : List Sentence)
    (pivot c b : Nat) : Nat :=
  if h : b < c ∧ ¬ less (lget xs pivot) (lget xs b) then dpScanB less xs pivot c (b + 1)
  else b
termination_by c - b
decreasing_by omega

/-- `doPivot` scan: `for ; b < c && data.Less(pivot, c-1); c--`. -/
def dpScanC (less : Sentence → Sentence → Bool) (xs : List Sentence)
    (pivot b c : Nat) : Nat :=
  if h : b < c ∧ less (lget xs pivot) (lget xs (c - 1)) then dpScanC less xs pivot b (c - 1)
  else c
termination_by c
decreasing_by omega

theorem dpScanB_ge (less : Sentence → Sentence → Bool) (xs : List Sentence)
    (pivot c b : Nat) : b ≤ dpScanB less xs pivot c b := by
  unfold dpScanB
  split
  · exact Nat.le_trans (Nat.le_succ b) (dpScanB_ge less xs pivot c (b + 1))
  · exact Nat.le_refl b
termination_by c - b
decreasing_by omega

theorem dpScanC_le (less : Sentence → Sentence → Bool) (xs : List Sentence)
    (pivot b c : Nat) : dpScanC less xs pivot b c ≤ c := by
  unfold dpScanC
  split
  · exact Nat.le_trans (dpScanC_le less xs pivot b (c - 1)) (Nat.sub_le c 1)
  · exact Nat.le_refl c
termination_by c
decreasing_by omega

/-- Main partition loop of `doPivot`: advance `b`, retreat `c`, swap
out-of-place pairs until the pointers cross; returns the slice and the
final `b` and `c`. -/
def dpLoop (less : Sentence → Sentence → Bool) (xs : List Sentence)
    (pivot b c : Nat) : List Sentence × Nat × Nat :=
  let b1 := dpScanB less xs pivot c b
  let c1 := dpScanC less xs pivot b1 c
  if h : b1 < c1 then dpLoop less (lswap xs b1 (c1 - 1)) pivot (b1 + 1) (c1 - 1)
  else (xs, b1, c1)
termination_by c - b
decreasing_by
  have e3 : dpScanC less xs pivot b1 c
      = dpScanC less xs pivot (dpScanB less xs pivot c b) c := rfl
  have h1 := dpScanB_ge less xs pivot c b
  have h2 := dpScanC_le less xs pivot b1 c
  omega

/-- Duplicate-protection scan: `for ; a < b && !data.Less(b-1, pivot); b--`. -/
def dpProtB (less : Sentence → Sentence → Bool) (xs : List Sentence)
    (pivot a b : Nat) : Nat :=
  if h : a < b ∧ ¬ less (lget xs (b - 1)) (lget xs pivot) then
    dpProtB less xs pivot a (b - 1)
  else b
termination_by b
decreasing_by omega

/-- Duplicate-protection scan: `for ; a < b && data.Less(a, pivot); a++`. -/
def dpProtA (less : Sentence → Sentence → Bool) (xs : List Sentence)
    (pivot b a : Nat) : Nat :=
  if h : a < b ∧ less (lget xs a) (lget xs pivot) then dpProtA less xs pivot b (a + 1)
  else a
termination_by b - a
decreasing_by omega

theorem dpProtB_le (less : Sentence → Sentence → Bool) (xs : List Sentence)
    (pivot a b : Nat) : dpProtB less xs pivot a b ≤ b := by
  unfold dpProtB
  split
  · exact Nat.le_trans (dpProtB_le less xs pivot a (b - 1)) (Nat.sub_le b 1)
  · exact Nat.le_refl b
termination_by b
decreasing_by omega

theorem dpProtA_ge (less : Sentence → Sentence → Bool) (xs : List Sentence)
    (pivot b a : Nat) : a ≤ dpProtA less xs pivot b a := by
  unfold dpProtA
  split
  · exact Nat.le_trans (Nat.le_succ a) (dpProtA_ge less xs pivot b (a + 1))
  · exact Nat.le_refl a
termination_by b - a
decreasing_by omega

/-- Duplicate-protection loop of `doPivot`; returns the slice and the
final `b` (`a` is dead after the loop). -/
def dpProtect (less : Sentence → Sentence → Bool) (xs : List Sentence)
    (pivot a b : Nat) : List Sentence × Nat :=
  let b1 := dpProtB less xs pivot a b
  let a1 := dpProtA less xs pivot b1 a
  if h : a1 < b1 then dpProtect less (lswap xs a1 (b1 - 1)) pivot (a1 + 1) (b1 - 1)
  else (xs, b1)
termination_by b - a
decreasing_by
  have e3 : dpProtA less xs pivot b1 a
      = dpProtA less xs pivot (dpProtB less xs pivot a b) a := rfl
  have h1 := dpProtB_le less xs pivot a b
  have h2 := dpProtA_ge less xs pivot b1 a
  omega

/-- The duplicate-testing block of `doPivot` (the body of
`if !protect && hi-c < (hi-lo)/4`): tests up to three points for
equality to the pivot, adjusting `b`, `c` and the `dups` count. -/
def dpDupCheck (less : Sentence → Sentence → Bool) (xs1 : List Sentence)
    (b0 c0 pivot m hi : Nat) : List Sentence × Nat × Nat × Bool :=
  match (if ¬ less (lget xs1 pivot) (lget xs1 (hi - 1)) then
      (lswap xs1 c0 (hi - 1), c0 + 1, 1)
    else (xs1, c0, 0)) with
  | (xsA, cA, d1) =>
    match (if ¬ less (lget xsA (b0 - 1)) (lget xsA pivot) then (b0 - 1, d1 + 1)
      else (b0, d1)) with
    | (bB, d2) =>
      match (if ¬ less (lget xsA m) (lget xsA pivot) then
          (lswap xsA m (bB - 1), bB - 1, d2 + 1)
        else (xsA, bB, d2)) with
      | (xsC, bC, d3) => (xsC, bC, cA, decide (d3 > 1))

/-- The tail of `doPivot`: optional duplicate-protection loop, then
`data.Swap(pivot, b-1); return b-1, c`. -/
def dpFinish (less : Sentence → Sentence → Bool)
    (st : List Sentence × Nat × Nat × Bool) (pivot a : Nat) :
    List Sentence × Nat × Nat :=
  match st with
  | (xs2, b2, c2, protect) =>
    match (if protect then dpProtect less xs2 pivot a b2 else (xs2, b2)) with
    | (xs3, b3) => (lswap xs3 pivot (b3 - 1), b3 - 1, c2)

/-- `func doPivot(data Interface, lo, hi int) (midlo, midhi int)`. -/
def doPivotGo (less : Sentence → Sentence → Bool) (xs : List Sentence)
    (lo hi : Nat) : List Sentence × Nat × Nat :=
  let m := (lo + hi) / 2
  let xs :=
    if hi - lo > 40 then
      let s := (hi - lo) / 8
      let xs := medianOfThree less xs lo (lo + s) (lo + 2 * s)
      let xs := medianOfThree less xs m (m - s) (m + s)
      medianOfThree less xs (hi - 1) (hi - 1 - s) (hi - 1 - 2 * s)
    else xs
  let xs := medianOfThree less xs lo m (hi - 1)
  let pivot := lo
  let a := dpScanA less xs pivot (hi - 1) (lo + 1)
  match dpLoop less xs pivot a (hi - 1) with
  | (xs1, b0, c0) =>
    dpFinish less
      (if ¬ (hi - c0 < 5) ∧ hi - c0 < (hi - lo) / 4 then
        dpDupCheck less xs1 b0 c0 pivot m hi
      else (xs1, b0, c0, decide (hi - c0 < 5)))
      pivot a

/-- `func maxDepth(n int) int`: `2 * ceil(lg(n+1))`, computed by the
shift loop of the Go source (`for i := n; i > 0; i >>= 1 { depth++ }`;
the first argument counts remaining loop checks, `n + 1` is enough). -/
def maxDepthLoop : Nat → Nat → Nat → Nat
  | 0, _, depth => depth
  | fuel + 1, i, depth => if i > 0 then maxDepthLoop fuel (i / 2) (depth + 1) else depth

def maxDepthGo (n : Nat) : Nat := maxDepthLoop (n + 1) n 0 * 2

/-- `func quickSort(data Interface, a, b, maxDepth int)`. The Go
function is a loop that recurses on the smaller half; here both halves
are recursive calls. `maxDepth` decreases on every call, so the `fuel`
argument (initialized to `maxDepth + 1` by `sortGo`) never reaches 0. -/
def quickSortGo (less : Sentence → Sentence → Bool) :
    Nat → List Sentence → Nat → Nat → Nat → List Sentence
  | 0, xs, _, _, _ => xs
  | fuel + 1, xs, a, b, md =>
    if b - a > 12 then
      if md = 0 then heapSortGo less xs a b
      else
        match doPivotGo less xs a b with
        | (xs1, mlo, mhi) =>
          if mlo - a < b - mhi then
            quickSortGo less fuel (quickSortGo less fuel xs1 a mlo (md - 1)) mhi b (md - 1)
          else
            quickSortGo less fuel (quickSortGo less fuel xs1 mhi b (md - 1)) a mlo (md - 1)
    else if b - a > 1 then insertionSortGo less (shellPass less (b - a) xs b (a + 6)) a b
    else xs

/-- `sort.Sort(data)`: `quickSort(data, 0, n, maxDepth(n))`. -/
def sortGo (less : Sentence → Sentence → Bool) (xs : List Sentence) : List Sentence :=
  quickSortGo less (maxDepthGo xs.length + 1) xs 0 xs.length (maxDepthGo xs.length)

/-! ## Result shaper

`processAPIResult` from `src/unnamed/part_000` (the current variant,
with the negative-limit guard) and from `src/sentiment.go` (the older
variant, without it). The Go `limit` is an `int` and is modelled as
`Int`. -/

/-- The response-building loop
`for i := 0; i < arraySize; i++ { resp[i] = map[...]{...Text.Content: ...Sentiment.Score} }`. -/
def buildResp (sorted : List Sentence) (arraySize : Nat) : Response :=
  (List.range arraySize).map fun i => ((lget sorted i).text, (lget sorted i).score)

/-- Sort the sentences of `result` in place per the requested order:
the `switch sortOrder` statement. -/
def sortSentences (sortOrder : SortOrder) (sentences : List Sentence) : List Sentence :=
  match sortOrder with
  | .Ascending => sortGo lessAsc sentences
  | .Descending => sortGo lessDesc sentences

/-- `func (svc *Service) processAPIResult(...)` from
`src/unnamed/part_000`: context re-check, nil-result check, in-place
sort, limit clamping with the `arraySize < 0` guard, projection. -/
def processAPIResult (ctx : Ctx) (result : Option AnalyzeSentimentResponse)
    (sortOrder : SortOrder) (limit : Int) : Option Response × Option GoErr :=
  match ctx.errAtShape with
  | some e => (none, some e)
  | none =>
    match result with
    | none => (none, none)
    | some r =>
      let sorted := sortSentences sortOrder r.sentences
      let len : Int := sorted.length
      let arraySize : Int := if limit < 0 then len else if len < limit then len else limit
      (some (buildResp sorted arraySize.toNat), none)

/-- `func (svc *Service) processAPIResult(...)` from `src/sentiment.go`:
same shape but `arraySize := limit; if len < limit { arraySize = len }`
with no negative-limit guard, so `make([]map[string]float32, arraySize)`
with a negative `arraySize` is a runtime failure, modelled as `none`. -/
def processAPIResultVariant (ctx : Ctx) (result : Option AnalyzeSentimentResponse)
    (sortOrder : SortOrder) (limit : Int) : Option (Option Response × Option GoErr) :=
  match ctx.errAtShape with
  | some e => some (none, some e)
  | none =>
    match result with
    | none => some (none, none)
    | some r =>
      let sorted := sortSentences sortOrder r.sentences
      let len : Int := sorted.length
      let arraySize : Int := if len < limit then len else limit
      if arraySize < 0 then none
      else some (some (buildResp sorted arraySize.toNat), none)

/-! ## Key normalizer

`strings.ToLower(strings.TrimSpace(input))`, operating on the string's
characters. `goIsSpace` is Go's `unicode.IsSpace` (the White_Space
property); `goToLower` is `unicode.ToLower` restricted to ASCII (all
inputs the repository's spec and tests exercise), leaving other
characters unchanged. -/

def goIsSpace (c : Char) : Bool :=
  decide (c.toNat = 32 ∨ c.toNat = 9 ∨ c.toNat = 10 ∨ c.toNat = 11 ∨ c.toNat = 12 ∨
    c.toNat = 13 ∨ c.toNat = 0x85 ∨ c.toNat = 0xA0 ∨ c.toNat = 0x1680 ∨
    (0x2000 ≤ c.toNat ∧ c.toNat ≤ 0x200A) ∨ c.toNat = 0x2028 ∨ c.toNat = 0x2029 ∨
    c.toNat = 0x202F ∨ c.toNat = 0x205F ∨ c.toNat = 0x3000)

/-- `strings.TrimSpace`: drop leading and trailing white space. -/
def trimSpaceGo (s : List Char) : List Char :=
  ((s.dropWhile goIsSpace).reverse.dropWhile goIsSpace).reverse

/-- `unicode.ToLower` on one character (ASCII range). -/
def goToLower (c : Char) : Char :=
  if 65 ≤ c.toNat ∧ c.toNat ≤ 90 then Char.ofNat (c.toNat + 32) else c

/-- `sanitizedInput := strings.ToLower(strings.TrimSpace(input))`. -/
def normalizeGo (s : String) : String :=
  ⟨(trimSpaceGo s.data).map goToLower⟩

/-! ## Pipeline orchestrator

`ProcessSentiment` (`src/unnamed/part_000`) and `Handle`
(`src/sentiment.go`). The bigcache instance, the protobuf codec and the
remote language client are external collaborators, passed in as
functions over an abstract byte type `β`:
  * `cacheGet key` is `svc.cache.Get(key)` (`none` covers both an
    absent key and an expired entry),
  * `marshal` / `unmarshal` are `proto.Marshal` / `proto.Unmarshal`
    (`none` is the error case),
  * `provider input` is `svc.client.AnalyzeSentiment` on a document
    whose content is `input` (`Except.error` is a non-nil `err`).
The returned record also reports the effects the call performed: the
provider calls made (with their argument), the cache keys looked up,
and the cache write requested (`svc.cache.Set`, whose own result the
code discards). -/

structure PipelineResult (β : Type) where
  response : Option Response
  error : Option GoErr
  providerCalls : List String
  cacheGets : List String
  cacheSet : Option (String × β)
deriving DecidableEq, Repr

/-- `func (svc *Service) getCachedResult(key string)`: a cache `Get`
error or an `Unmarshal` error both yield nil. -/
def getCachedResult {β : Type} (unmarshal : β → Option AnalyzeSentimentResponse)
    (cacheGet : String → Option β) (key : String) :
    Option AnalyzeSentimentResponse :=
  match cacheGet key with
  | none => none
  | some entry =>
    match unmarshal entry with
    | none => none
    | some result => some result

/-- `func (svc *Service) ProcessSentiment(...)` from
`src/unnamed/part_000`. -/
def ProcessSentiment {β : Type} (marshal : AnalyzeSentimentResponse → Option β)
    (unmarshal : β → Option AnalyzeSentimentResponse)
    (cacheGet : String → Option β)
    (provider : String → Except GoErr AnalyzeSentimentResponse)
    (ctx : Ctx) (input : String) (sortOrder : SortOrder) (limit : Int) :
    PipelineResult β :=
  match ctx.errAtStart with
  | some e => ⟨none, some e, [], [], none⟩
  | none =>
    let sanitizedInput := normalizeGo input
    match getCachedResult unmarshal cacheGet sanitizedInput with
    | some cachedResult =>
      let shaped := processAPIResult ctx (some cachedResult) sortOrder limit
      ⟨shaped.1, shaped.2, [], [sanitizedInput], none⟩
    | none =>
      match provider input with
      | .error e => ⟨none, some e, [input], [sanitizedInput], none⟩
      | .ok resp =>
        let setReq := (marshal resp).map fun respBytes => (sanitizedInput, respBytes)
        let shaped := processAPIResult ctx (some resp) sortOrder limit
        ⟨shaped.1, shaped.2, [input], [sanitizedInput], setReq⟩

/-- `func (svc *Service) Handle(...)` from `src/sentiment.go`: the same
orchestration, delegating to the variant shaper; `none` propagates the
variant's runtime failure on a negative limit. -/
def Handle {β : Type} (marshal : AnalyzeSentimentResponse → Option β)
    (unmarshal : β → Option AnalyzeSentimentResponse)
    (cacheGet : String → Option β)
    (provider : String → Except GoErr AnalyzeSentimentResponse)
    (ctx : Ctx) (input : String) (sortOrder : SortOrder) (limit : Int) :
    Option (PipelineResult β) :=
  match ctx.errAtStart with
  | some e => some ⟨none, some e, [], [], none⟩
  | none =>
    let sanitizedInput := normalizeGo input
    match getCachedResult unmarshal cacheGet sanitizedInput with
    | some cachedResult =>
      (processAPIResultVariant ctx (some cachedResult) sortOrder limit).map
        fun shaped => ⟨shaped.1, shaped.2, [], [sanitizedInput], none⟩
    | none =>
      match provider input with
      | .error e => some ⟨none, some e, [input], [sanitizedInput], none⟩
      | .ok resp =>
        let setReq := (marshal resp).map fun respBytes => (sanitizedInput, respBytes)
        (processAPIResultVariant ctx (some resp) sortOrder limit).map
          fun shaped => ⟨shaped.1, shaped.2, [input], [sanitizedInput], setReq⟩

/-! ## Length preservation

`sort.Sort` only ever swaps elements in place, so it preserves the
slice length; this backs the limit-semantics claims. -/

theorem length_lswap (xs : List Sentence) (i j : Nat) :
    (lswap xs i j).length = xs.length := by
  simp [lswap]

theorem length_insInner (less : Sentence → Sentence → Bool) (xs : List Sentence)
    (a j : Nat) : (insInner less xs a j).length = xs.length := by
  induction j generalizing xs with
  | zero => rfl
  | succ j ih =>
    unfold insInner
    split
    · rw [ih, length_lswap]
    · rfl

theorem length_insOuter (less : Sentence → Sentence → Bool) (fuel : Nat)
    (xs : List Sentence) (a b i : Nat) :
    (insOuter less fuel xs a b i).length = xs.length := by
  induction fuel generalizing xs i with
  | zero => rfl
  | succ fuel ih =>
    unfold insOuter
    split
    · rw [ih, length_insInner]
    · rfl

theorem length_insertionSortGo (less : Sentence → Sentence → Bool) (xs : List Sentence)
    (a b : Nat) : (insertionSortGo less xs a b).length = xs.length :=
  length_insOuter less (b - a) xs a b (a + 1)

theorem length_shellPass (less : Sentence → Sentence → Bool) (fuel : Nat)
    (xs : List Sentence) (b i : Nat) :
    (shellPass less fuel xs b i).length = xs.length := by
  induction fuel generalizing xs i with
  | zero => rfl
  | succ fuel ih =>
    unfold shellPass
    split
    · rw [ih]
      split
      · rw [length_lswap]
      · rfl
    · rfl

theorem length_siftDownLoop (less : Sentence → Sentence → Bool) (xs : List Sentence)
    (hi first root : Nat) : (siftDownLoop less xs hi first root).length = xs.length := by
  unfold siftDownLoop
  split
  · split
    · split
      · rw [length_siftDownLoop, length_lswap]
      · rfl
    · split
      · rw [length_siftDownLoop, length_lswap]
      · rfl
  · rfl
termination_by hi - root
decreasing_by
  · omega
  · omega

theorem length_heapBuild (less : Sentence → Sentence → Bool) (xs : List Sentence)
    (hi first i : Nat) : (heapBuild less xs hi first i).length = xs.length := by
  induction i generalizing xs with
  | zero => exact length_siftDownLoop less xs hi first 0
  | succ i ih => rw [heapBuild, ih, length_siftDownLoop]

theorem length_heapPop (less : Sentence → Sentence → Bool) (xs : List Sentence)
    (first i : Nat) : (heapPop less xs first i).length = xs.length := by
  induction i generalizing xs with
  | zero => rw [heapPop, length_siftDownLoop, length_lswap]
  | succ i ih => rw [heapPop, ih, length_siftDownLoop, length_lswap]

theorem length_heapSortGo (less : Sentence → Sentence → Bool) (xs : List Sentence)
    (a b : Nat) : (heapSortGo less xs a b).length = xs.length := by
  unfold heapSortGo
  dsimp only
  split
  . rw [length_heapBuild]
  . rw [length_heapPop, length_heapBuild]

theorem length_medianOfThree (less : Sentence → Sentence → Bool) (xs : List Sentence)
    (m1 m0 m2 : Nat) : (medianOfThree less xs m1 m0 m2).length = xs.length := by
  unfold medianOfThree
  dsimp only
  split_ifs <;> simp [length_lswap]

theorem length_dpLoop (less : Sentence → Sentence → Bool) (xs : List Sentence)
    (pivot b c : Nat) : (dpLoop less xs pivot b c).1.length = xs.length := by
  unfold dpLoop
  dsimp only
  split
  . rw [length_dpLoop, length_lswap]
  . rfl
termination_by c - b
decreasing_by
  have h1 := dpScanB_ge less xs pivot c b
  have h2 := dpScanC_le less xs pivot (dpScanB less xs pivot c b) c
  omega

theorem length_dpProtect (less : Sentence → Sentence → Bool) (xs : List Sentence)
    (pivot a b : Nat) : (dpProtect less xs pivot a b).1.length = xs.length := by
  unfold dpProtect
  dsimp only
  split
  . rw [length_dpProtect, length_lswap]
  . rfl
termination_by b - a
decreasing_by
  have h1 := dpProtB_le less xs pivot a b
  have h2 := dpProtA_ge less xs pivot (dpProtB less xs pivot a b) a
  omega

theorem length_dpDupCheck (less : Sentence → Sentence → Bool) (xs1 : List Sentence)
    (b0 c0 pivot m hi : Nat) :
    (dpDupCheck less xs1 b0 c0 pivot m hi).1.length = xs1.length := by
  unfold dpDupCheck
  split
  next xsA cA d1 heqA =>
    split
    next bB d2 heqB =>
      split
      next xsC bC d3 heqC =>
        have hA : xsA.length = xs1.length := by
          split at heqA <;> simp only [Prod.mk.injEq] at heqA <;> rw [← heqA.1] <;>
            simp [length_lswap]
        have hC : xsC.length = xsA.length := by
          split at heqC <;> simp only [Prod.mk.injEq] at heqC <;> rw [← heqC.1] <;>
            simp [length_lswap]
        dsimp only
        rw [hC, hA]

theorem length_dpFinish (less : Sentence → Sentence → Bool)
    (st : List Sentence × Nat × Nat × Bool) (pivot a : Nat) :
    (dpFinish less st pivot a).1.length = st.1.length := by
  unfold dpFinish
  split
  next xs2 b2 c2 protect =>
    split
    next xs3 b3 heq =>
      dsimp only
      rw [length_lswap]
      split at heq
      . have h := length_dpProtect less xs2 pivot a b2
        rw [heq] at h
        exact h
      . simp only [Prod.mk.injEq] at heq
        rw [← heq.1]

theorem length_doPivotGo (less : Sentence → Sentence → Bool) (xs : List Sentence)
    (lo hi : Nat) : (doPivotGo less xs lo hi).1.length = xs.length := by
  unfold doPivotGo
  dsimp only
  have hprep :
      (medianOfThree less
        (if hi - lo > 40 then
          medianOfThree less
            (medianOfThree less
              (medianOfThree less xs lo (lo + (hi - lo) / 8) (lo + 2 * ((hi - lo) / 8)))
              ((lo + hi) / 2) ((lo + hi) / 2 - (hi - lo) / 8)
              ((lo + hi) / 2 + (hi - lo) / 8))
            (hi - 1) (hi - 1 - (hi - lo) / 8) (hi - 1 - 2 * ((hi - lo) / 8))
        else xs) lo ((lo + hi) / 2) (hi - 1)).length = xs.length := by
    rw [length_medianOfThree]
    split <;> simp [length_medianOfThree]
  generalize hP :
      (medianOfThree less
        (if hi - lo > 40 then
          medianOfThree less
            (medianOfThree less
              (medianOfThree less xs lo (lo + (hi - lo) / 8) (lo + 2 * ((hi - lo) / 8)))
              ((lo + hi) / 2) ((lo + hi) / 2 - (hi - lo) / 8)
              ((lo + hi) / 2 + (hi - lo) / 8))
            (hi - 1) (hi - 1 - (hi - lo) / 8) (hi - 1 - 2 * ((hi - lo) / 8))
        else xs) lo ((lo + hi) / 2) (hi - 1)) = xsP at hprep ⊢
  generalize hL :
      dpLoop less xsP lo (dpScanA less xsP lo (hi - 1) (lo + 1)) (hi - 1) = L
  have hL1 : L.1.length = xs.length := by
    rw [← hL, length_dpLoop, hprep]
  rw [length_dpFinish]
  split
  . rw [length_dpDupCheck]
    exact hL1
  . exact hL1

theorem length_quickSortGo (less : Sentence → Sentence → Bool) (fuel : Nat)
    (xs : List Sentence) (a b md : Nat) :
    (quickSortGo less fuel xs a b md).length = xs.length := by
  induction fuel generalizing xs a b md with
  | zero => rfl
  | succ fuel ih =>
    unfold quickSortGo
    split
    · split
      · exact length_heapSortGo less xs a b
      · split
        next xs1 mlo mhi heq =>
          have hxs1 : xs1.length = xs.length := by
            have h := length_doPivotGo less xs a b
            rw [heq] at h
            exact h
          split
          · rw [ih, ih, hxs1]
          · rw [ih, ih, hxs1]
    · split
      · rw [length_insertionSortGo, length_shellPass]
      · rfl

theorem length_sortGo (less : Sentence → Sentence → Bool) (xs : List Sentence) :
    (sortGo less xs).length = xs.length :=
  length_quickSortGo less (maxDepthGo xs.length + 1) xs 0 xs.length (maxDepthGo xs.length)

theorem length_sortSentences (sortOrder : SortOrder) (sentences : List Sentence) :
    (sortSentences sortOrder sentences).length = sentences.length := by
  cases sortOrder <;> exact length_sortGo _ sentences

/-! ## Stability of the short-range path

Every swap `insertionSort` performs is an adjacent transposition of two
elements with distinct scores (the comparators only return `true` on a
strict score inequality), so the subsequence of entries carrying any
fixed score is untouched. The shell pass is a no-op when the range is
at most 6 long, so ranges of at most 6 elements are sorted stably. -/

/-- The sublist of entries whose score is `q`, in order. -/
def sfilter (q : ℚ) (l : List Sentence) : List Sentence :=
  l.filter fun x => decide (x.score = q)

theorem sfilter_lswap_succ (xs : List Sentence) (j : Nat) (hj : j + 1 < xs.length)
    (hne : (lget xs (j + 1)).score ≠ (lget xs j).score) (q : ℚ) :
    sfilter q (lswap xs (j + 1) j) = sfilter q xs := by
  induction xs generalizing j with
  | nil => simp at hj
  | cons x rest ih =>
    cases j with
    | zero =>
      cases rest with
      | nil => simp at hj
      | cons y t =>
        have hxy : y.score ≠ x.score := by
          simpa [lget, List.getD] using hne
        simp only [lswap, lget, List.getD_cons_succ, List.getD_cons_zero, List.getD,
          List.set_cons_succ, List.set_cons_zero, sfilter, List.filter]
        rcases hx : decide (x.score = q) with _ | _ <;>
          rcases hy : decide (y.score = q) with _ | _ <;>
            simp_all
    | succ j =>
      have hj' : j + 1 < rest.length := by
        simpa using hj
      have hne' : (lget rest (j + 1)).score ≠ (lget rest j).score := by
        simpa [lget, List.getD_cons_succ] using hne
      have hrw : lswap (x :: rest) (j + 2) (j + 1) = x :: lswap rest (j + 1) j := by
        simp [lswap, lget, List.getD_cons_succ, List.set_cons_succ]
      rw [hrw]
      simp only [sfilter, List.filter]
      rcases hx : decide (x.score = q) with _ | _
      · exact ih j hj' hne'
      · have := ih j hj' hne'
        simp only [sfilter] at this
        rw [this]

/-- The comparators used by the service only answer `true` on strictly
different scores. -/
def ScoreStrict (less : Sentence → Sentence → Bool) : Prop :=
  ∀ x y, less x y = true → x.score ≠ y.score

theorem scoreStrict_lessAsc : ScoreStrict lessAsc := by
  intro x y h
  have : x.score < y.score := by simpa [lessAsc] using h
  exact ne_of_lt this

theorem scoreStrict_lessDesc : ScoreStrict lessDesc := by
  intro x y h
  have : y.score < x.score := by simpa [lessDesc] using h
  exact (ne_of_lt this).symm

theorem sfilter_insInner (less : Sentence → Sentence → Bool)
    (hstrict : ScoreStrict less) (xs : List Sentence) (a j : Nat)
    (hj : j < xs.length) (q : ℚ) :
    sfilter q (insInner less xs a j) = sfilter q xs := by
  induction j generalizing xs with
  | zero => rfl
  | succ j ih =>
    unfold insInner
    split
    next h =>
      have hne : (lget xs (j + 1)).score ≠ (lget xs j).score := hstrict _ _ h.2
      rw [ih (lswap xs (j + 1) j) (by rw [length_lswap]; omega)]
      exact sfilter_lswap_succ xs j hj hne q
    next => rfl

theorem sfilter_insOuter (less : Sentence → Sentence → Bool)
    (hstrict : ScoreStrict less) (fuel : Nat) (xs : List Sentence) (a b i : Nat)
    (hb : b ≤ xs.length) (q : ℚ) :
    sfilter q (insOuter less fuel xs a b i) = sfilter q xs := by
  induction fuel generalizing xs i with
  | zero => rfl
  | succ fuel ih =>
    unfold insOuter
    split
    next h =>
      rw [ih (insInner less xs a i) (i + 1) (by rw [length_insInner]; exact hb)]
      exact sfilter_insInner less hstrict xs a i (by omega) q
    next => rfl

theorem sfilter_insertionSortGo (less : Sentence → Sentence → Bool)
    (hstrict : ScoreStrict less) (xs : List Sentence) (a b : Nat)
    (hb : b ≤ xs.length) (q : ℚ) :
    sfilter q (insertionSortGo less xs a b) = sfilter q xs :=
  sfilter_insOuter less hstrict (b - a) xs a b (a + 1) hb q

/-- On a list of at most 6 sentences, `sort.Sort` runs the shell pass
as a no-op followed by insertion sort, hence preserves every
fixed-score subsequence. -/
theorem sfilter_sortGo_le6 (less : Sentence → Sentence → Bool)
    (hstrict : ScoreStrict less) (xs : List Sentence) (h6 : xs.length ≤ 6) (q : ℚ) :
    sfilter q (sortGo less xs) = sfilter q xs := by
  unfold sortGo
  rw [quickSortGo]
  have h12 : ¬ xs.length - 0 > 12 := by omega
  rw [if_neg h12]
  split
  next h1 =>
    have hshell : shellPass less (xs.length - 0) xs xs.length (0 + 6) = xs := by
      rcases hf : xs.length - 0 with _ | fuel
      · rfl
      · unfold shellPass
        have : ¬ 0 + 6 < xs.length := by omega
        rw [if_neg this]
    rw [hshell]
    exact sfilter_insertionSortGo less hstrict xs 0 xs.length (Nat.le_refl _) q
  next => rfl

theorem sfilter_sortSentences_le6 (ord : SortOrder) (xs : List Sentence)
    (h6 : xs.length ≤ 6) (q : ℚ) :
    sfilter q (sortSentences ord xs) = sfilter q xs := by
  cases ord with
  | Ascending => exact sfilter_sortGo_le6 lessAsc scoreStrict_lessAsc xs h6 q
  | Descending => exact sfilter_sortGo_le6 lessDesc scoreStrict_lessDesc xs h6 q

/-! ## Normalizer lemmas -/

theorem toNat_goOfNat (n : Nat) (h : n < 0xd800) : (Char.ofNat n).toNat = n := by
  rw [Char.ofNat, dif_pos (Or.inl h)]
  rfl

theorem goIsSpace_goToLower (c : Char) : goIsSpace (goToLower c) = goIsSpace c := by
  unfold goToLower
  split
  next h =>
    have hv : (Char.ofNat (c.toNat + 32)).toNat = c.toNat + 32 :=
      toNat_goOfNat _ (by omega)
    have h1 : goIsSpace (Char.ofNat (c.toNat + 32)) = false := by
      simp only [goIsSpace, hv, decide_eq_false_iff_not]
      omega
    have h2 : goIsSpace c = false := by
      simp only [goIsSpace, decide_eq_false_iff_not]
      omega
    rw [h1, h2]
  next => rfl

theorem trimSpaceGo_pad (w1 w2 core : List Char)
    (h1 : ∀ c ∈ w1, goIsSpace c) (h2 : ∀ c ∈ w2, goIsSpace c) :
    trimSpaceGo (w1 ++ core ++ w2) = trimSpaceGo core := by
  unfold trimSpaceGo
  rw [List.append_assoc, List.dropWhile_append_of_pos h1, List.dropWhile_append]
  split
  next hemp =>
    have hw2 : w2.dropWhile goIsSpace = [] := by
      rw [List.dropWhile_eq_nil_iff]
      intro x hx
      exact h2 x hx
    have hc : core.dropWhile goIsSpace = [] := by
      rwa [List.isEmpty_iff] at hemp
    rw [hw2, hc]
  next =>
    rw [List.reverse_append, List.dropWhile_append_of_pos]
    intro c hc
    exact h2 c (List.mem_reverse.mp hc)

theorem trimSpaceGo_map_toLower (l : List Char) :
    trimSpaceGo (l.map goToLower) = (trimSpaceGo l).map goToLower := by
  have hp : (goIsSpace ∘ goToLower) = goIsSpace := funext goIsSpace_goToLower
  unfold trimSpaceGo
  rw [List.dropWhile_map, hp, ← List.map_reverse, List.dropWhile_map, hp,
    ← List.map_reverse]

/-! ## Bridging lemmas for the claim statements -/

/-- Project a sentence to the single-key map the response carries. -/
def toPair (s : Sentence) : String × ℚ := (s.text, s.score)

theorem buildResp_eq_map_take (sorted : List Sentence) (k : Nat)
    (hk : k ≤ sorted.length) : buildResp sorted k = (sorted.take k).map toPair := by
  apply List.ext_getElem
  · simp [buildResp]
    omega
  · intro i h1 h2
    have hi : i < k := by simp [buildResp] at h1; omega
    have hi2 : i < sorted.length := by omega
    simp [buildResp, toPair, lget, List.getD_eq_getElem, hi2, List.getElem_take]

theorem filter_map_toPair (l : List Sentence) (q : ℚ) :
    ((l.map toPair).filter fun p => decide (p.2 = q)) = (sfilter q l).map toPair := by
  induction l with
  | nil => rfl
  | cons x t ih =>
    simp only [List.map_cons, List.filter_cons, sfilter, toPair] at *
    rcases hx : decide (x.score = q) with _ | _ <;> simp_all [sfilter, toPair]

/-- The live context used by the single-call shaping claims. -/
def ctxLive : Ctx := ⟨none, none⟩

/-- The five-sentence worked example of the specification and of the
repository's own test suite. -/
def ex5 : List Sentence :=
  [⟨"word1", 0.8⟩, ⟨"word2", 0.8⟩, ⟨"word3", 0.2⟩, ⟨"word4", -0.8⟩, ⟨"word5", 0⟩]

/-- A seven-sentence input on which Go 1.10's `sort.Sort` is unstable:
the shell-sort gap-6 pass swaps index 6 with index 0, carrying the last
zero-score entry over the five equal-score entries between them. -/
def ex7 : List Sentence :=
  [⟨"a", 1⟩, ⟨"z1", 0⟩, ⟨"z2", 0⟩, ⟨"z3", 0⟩, ⟨"z4", 0⟩, ⟨"z5", 0⟩, ⟨"z6", 0⟩]

/-- Claim C1 as stated: for every sentence list, sort order and limit,
entries of the shaped output with equal scores keep the relative order
they had in the input (for each score, the output's entries with that
score are a sublist of the input's). -/
def ShapingStable : Prop :=
  ∀ (sentences : List Sentence) (ord : SortOrder) (limit : Int) (out : Response),
    (processAPIResult ctxLive (some ⟨sentences⟩) ord limit).1 = some out →
    ∀ q : ℚ, (out.filter fun p => decide (p.2 = q)).Sublist
      ((sentences.map toPair).filter fun p => decide (p.2 = q))

/-- C1 (counterexample): the shaping step is NOT stable for every
sentence list: on `ex7` (one score-1 entry followed by six score-0
entries), ascending shaping emits the six score-0 entries in the order
z6, z1, z2, z3, z4, z5 — the z6/z1 pair has flipped. `sort.Sort` is
unstable for ranges of 7 to 12 elements because of its shell-sort gap-6
pass (and for larger ranges because of quicksort partitioning). -/
theorem c1_stability_counterexample : ¬ ShapingStable := by
  intro h
  have h0 := h ex7 SortOrder.Ascending (-1)
    [("z6", 0), ("z1", 0), ("z2", 0), ("z3", 0), ("z4", 0), ("z5", 0), ("a", 1)]
    (by decide) 0
  exact absurd h0 (by decide)

/-- C1 (amended): the shaping step is stable for inputs of at most six
sentences (where `sort.Sort` reduces to a plain insertion sort): under
both sort orders and any limit, entries of the shaped output with equal
scores keep the relative order they had in the input. For seven or more
sentences Go's unstable `sort.Sort` may reorder equal-score entries. -/
theorem c1_stability_amended (ctx : Ctx) (sentences : List Sentence) (ord : SortOrder)
    (limit : Int) (out : Response) (hctx : ctx.errAtShape = none)
    (h6 : sentences.length ≤ 6)
    (hout : (processAPIResult ctx (some ⟨sentences⟩) ord limit).1 = some out) (q : ℚ) :
    (out.filter fun p => decide (p.2 = q)).Sublist
      ((sentences.map toPair).filter fun p => decide (p.2 = q)) := by
  simp only [processAPIResult, hctx, Option.some.injEq] at hout
  subst hout
  have hlen := length_sortSentences ord sentences
  have hk : (if limit < 0 then ((sortSentences ord sentences).length : Int)
      else if ((sortSentences ord sentences).length : Int) < limit then
        ((sortSentences ord sentences).length : Int)
      else limit).toNat ≤ (sortSentences ord sentences).length := by
    split_ifs <;> omega
  rw [buildResp_eq_map_take _ _ hk, filter_map_toPair, filter_map_toPair]
  apply List.Sublist.map
  have h2 := (List.take_sublist
    ((if limit < 0 then ((sortSentences ord sentences).length : Int)
      else if ((sortSentences ord sentences).length : Int) < limit then
        ((sortSentences ord sentences).length : Int)
      else limit).toNat) (sortSentences ord sentences)).filter
    (fun x => decide (x.score = q))
  have h3 : sfilter q (sortSentences ord sentences) = sfilter q sentences :=
    sfilter_sortSentences_le6 ord sentences h6 q
  simp only [sfilter] at h3 ⊢
  rw [← h3]
  exact h2

/-- C2: with a live context, the shaped output of the part_000
`processAPIResult` has length `min limit (number of sentences)` for a
non-negative limit and length `number of sentences` for a negative
limit. -/
theorem c2_limit_semantics (ctx : Ctx) (sentences : List Sentence) (ord : SortOrder)
    (limit : Int) (hctx : ctx.errAtShape = none) :
    ∃ out : Response,
      (processAPIResult ctx (some ⟨sentences⟩) ord limit).1 = some out ∧
        out.length =
          if limit < 0 then sentences.length else min limit.toNat sentences.length := by
  simp only [processAPIResult, hctx]
  refine ⟨_, rfl, ?_⟩
  have hlen := length_sortSentences ord sentences
  simp only [buildResp, List.length_map, List.length_range]
  split_ifs <;> omega

/-- C3: a second call whose normalized key matches a prior call's, while
the bytes that call stored are still live in the cache, yields the same
shaped response as the first call and performs no provider call (the
cached path — decode then shape — coincides with the fresh path). -/
theorem c3_cache_transparency (β : Type)
    (marshal : AnalyzeSentimentResponse → Option β)
    (unmarshal : β → Option AnalyzeSentimentResponse)
    (cacheGet1 cacheGet2 : String → Option β)
    (provider : String → Except GoErr AnalyzeSentimentResponse)
    (ctx1 ctx2 : Ctx) (input1 input2 : String) (ord : SortOrder) (limit : Int)
    (resp : AnalyzeSentimentResponse) (bz : β)
    (h1s : ctx1.errAtStart = none) (h1p : ctx1.errAtShape = none)
    (h2s : ctx2.errAtStart = none) (h2p : ctx2.errAtShape = none)
    (hkey : normalizeGo input2 = normalizeGo input1)
    (hmiss : getCachedResult unmarshal cacheGet1 (normalizeGo input1) = none)
    (hprov : provider input1 = .ok resp)
    (hmar : marshal resp = some bz)
    (hrt : unmarshal bz = some resp)
    (hlive : cacheGet2 (normalizeGo input1) = some bz) :
    (ProcessSentiment marshal unmarshal cacheGet2 provider ctx2 input2 ord limit).response
      = (ProcessSentiment marshal unmarshal cacheGet1 provider ctx1 input1 ord
          limit).response ∧
    (ProcessSentiment marshal unmarshal cacheGet2 provider ctx2 input2 ord
        limit).providerCalls = [] := by
  have hhit : getCachedResult unmarshal cacheGet2 (normalizeGo input2) = some resp := by
    rw [hkey]
    simp only [getCachedResult, hlive, hrt]
  simp only [ProcessSentiment, h1s, h2s, hhit, hmiss, hprov, hmar]
  simp [processAPIResult, h1p, h2p]

/-- C4: (1) if the context is already expired on entry, the handler
returns that context error immediately, with no cache lookup and no
provider call; (2) if the context is live on entry but expired by the
time the shaping step runs (after a cache hit or a successful provider
call), the handler returns the context error instead of the computed
response. -/
theorem c4_cancellation :
    (∀ (β : Type) (marshal : AnalyzeSentimentResponse → Option β)
      (unmarshal : β → Option AnalyzeSentimentResponse)
      (cacheGet : String → Option β)
      (provider : String → Except GoErr AnalyzeSentimentResponse)
      (ctx : Ctx) (input : String) (ord : SortOrder) (limit : Int) (e : GoErr),
      ctx.errAtStart = some e →
      ProcessSentiment marshal unmarshal cacheGet provider ctx input ord limit =
        ⟨none, some e, [], [], none⟩) ∧
    (∀ (β : Type) (marshal : AnalyzeSentimentResponse → Option β)
      (unmarshal : β → Option AnalyzeSentimentResponse)
      (cacheGet : String → Option β)
      (provider : String → Except GoErr AnalyzeSentimentResponse)
      (ctx : Ctx) (input : String) (ord : SortOrder) (limit : Int) (e : GoErr),
      ctx.errAtStart = none → ctx.errAtShape = some e →
      ((∃ r, getCachedResult unmarshal cacheGet (normalizeGo input) = some r) ∨
        (∃ resp, provider input = .ok resp)) →
      (ProcessSentiment marshal unmarshal cacheGet provider ctx input ord
          limit).response = none ∧
      (ProcessSentiment marshal unmarshal cacheGet provider ctx input ord
          limit).error = some e) := by
  constructor
  · intro β marshal unmarshal cacheGet provider ctx input ord limit e hs
    simp [ProcessSentiment, hs]
  · intro β marshal unmarshal cacheGet provider ctx input ord limit e hs hp hdone
    rcases hhit : getCachedResult unmarshal cacheGet (normalizeGo input) with _ | r
    · rcases hprov : provider input with e2 | resp
      · rcases hdone with ⟨r, hr⟩ | ⟨resp, hresp⟩
        · rw [hhit] at hr
          exact absurd hr (by simp)
        · rw [hprov] at hresp
          exact absurd hresp (by simp)
      · simp [ProcessSentiment, hs, hhit, hprov, processAPIResult, hp]
    · simp [ProcessSentiment, hs, hhit, processAPIResult, hp]

/-- C5: cache-layer failures are never surfaced: (1) cached bytes that
fail to decode behave exactly like a cold cache; (2) a failing
`proto.Marshal` of the fresh result leaves the shaped response and the
nil error intact, merely dropping the cache write; (3) the only errors
the handler can return are the context errors observed at its two
checks and the provider's error. -/
theorem c5_cache_failures_self_healing :
    (∀ (β : Type) (marshal : AnalyzeSentimentResponse → Option β)
      (unmarshal : β → Option AnalyzeSentimentResponse)
      (cacheGet : String → Option β)
      (provider : String → Except GoErr AnalyzeSentimentResponse)
      (ctx : Ctx) (input : String) (ord : SortOrder) (limit : Int) (bz : β),
      cacheGet (normalizeGo input) = some bz → unmarshal bz = none →
      ProcessSentiment marshal unmarshal cacheGet provider ctx input ord limit =
        ProcessSentiment marshal unmarshal (fun _ => none) provider ctx input ord
          limit) ∧
    (∀ (β : Type) (marshal : AnalyzeSentimentResponse → Option β)
      (unmarshal : β → Option AnalyzeSentimentResponse)
      (cacheGet : String → Option β)
      (provider : String → Except GoErr AnalyzeSentimentResponse)
      (ctx : Ctx) (input : String) (ord : SortOrder) (limit : Int)
      (resp : AnalyzeSentimentResponse),
      ctx.errAtStart = none → ctx.errAtShape = none →
      getCachedResult unmarshal cacheGet (normalizeGo input) = none →
      provider input = .ok resp → marshal resp = none →
      (ProcessSentiment marshal unmarshal cacheGet provider ctx input ord
          limit).response = (processAPIResult ctx (some resp) ord limit).1 ∧
      (ProcessSentiment marshal unmarshal cacheGet provider ctx input ord
          limit).error = none ∧
      (ProcessSentiment marshal unmarshal cacheGet provider ctx input ord
          limit).cacheSet = none) ∧
    (∀ (β : Type) (marshal : AnalyzeSentimentResponse → Option β)
      (unmarshal : β → Option AnalyzeSentimentResponse)
      (cacheGet : String → Option β)
      (provider : String → Except GoErr AnalyzeSentimentResponse)
      (ctx : Ctx) (input : String) (ord : SortOrder) (limit : Int) (e : GoErr),
      (ProcessSentiment marshal unmarshal cacheGet provider ctx input ord
          limit).error = some e →
      ctx.errAtStart = some e ∨ ctx.errAtShape = some e ∨
        provider input = .error e) := by
  refine ⟨?_, ?_, ?_⟩
  · intro β marshal unmarshal cacheGet provider ctx input ord limit bz hbz hum
    have h : getCachedResult unmarshal cacheGet (normalizeGo input)
        = getCachedResult unmarshal (fun _ => none) (normalizeGo input) := by
      simp [getCachedResult, hbz, hum]
    unfold ProcessSentiment
    dsimp only
    rw [h]
  · intro β marshal unmarshal cacheGet provider ctx input ord limit resp hs hp hmiss
      hprov hmar
    simp [ProcessSentiment, hs, hmiss, hprov, hmar, processAPIResult, hp]
  · intro β marshal unmarshal cacheGet provider ctx input ord limit e herr
    rcases hs : ctx.errAtStart with _ | e1
    · rcases hhit : getCachedResult unmarshal cacheGet (normalizeGo input) with _ | r
      · rcases hprov : provider input with e2 | resp
        · simp [ProcessSentiment, hs, hhit, hprov] at herr
          subst herr
          exact Or.inr (Or.inr rfl)
        · rcases hp : ctx.errAtShape with _ | e3
          · simp [ProcessSentiment, hs, hhit, hprov, processAPIResult, hp] at herr
          · simp [ProcessSentiment, hs, hhit, hprov, processAPIResult, hp] at herr
            subst herr
            exact Or.inr (Or.inl rfl)
      · rcases hp : ctx.errAtShape with _ | e3
        · simp [ProcessSentiment, hs, hhit, processAPIResult, hp] at herr
        · simp [ProcessSentiment, hs, hhit, processAPIResult, hp] at herr
          subst herr
          exact Or.inr (Or.inl rfl)
    · simp [ProcessSentiment, hs] at herr
      subst herr
      exact Or.inl rfl

/-- C6: on a cache miss the provider is called exactly once, with the
original raw input (not the normalized key); the cache is read under
the normalized key, and written under it on success; a provider failure
is returned as the request's error with no cache write and no retry. -/
theorem c6_miss_uses_raw_input (β : Type)
    (marshal : AnalyzeSentimentResponse → Option β)
    (unmarshal : β → Option AnalyzeSentimentResponse)
    (cacheGet : String → Option β)
    (provider : String → Except GoErr AnalyzeSentimentResponse)
    (ctx : Ctx) (input : String) (ord : SortOrder) (limit : Int)
    (hs : ctx.errAtStart = none)
    (hmiss : getCachedResult unmarshal cacheGet (normalizeGo input) = none) :
    (ProcessSentiment marshal unmarshal cacheGet provider ctx input ord
        limit).providerCalls = [input] ∧
    (ProcessSentiment marshal unmarshal cacheGet provider ctx input ord
        limit).cacheGets = [normalizeGo input] ∧
    (∀ e, provider input = .error e →
      ProcessSentiment marshal unmarshal cacheGet provider ctx input ord limit =
        ⟨none, some e, [input], [normalizeGo input], none⟩) ∧
    (∀ resp bz, provider input = .ok resp → marshal resp = some bz →
      (ProcessSentiment marshal unmarshal cacheGet provider ctx input ord
          limit).cacheSet = some (normalizeGo input, bz)) := by
  refine ⟨?_, ?_, ?_, ?_⟩
  · rcases hprov : provider input with e | resp <;>
      simp [ProcessSentiment, hs, hmiss, hprov]
  · rcases hprov : provider input with e | resp <;>
      simp [ProcessSentiment, hs, hmiss, hprov]
  · intro e hprov
    simp [ProcessSentiment, hs, hmiss, hprov]
  · intro resp bz hprov hmar
    simp [ProcessSentiment, hs, hmiss, hprov, hmar]

/-- C7: the normalizer (trim surrounding white space, then lowercase)
identifies any two inputs that differ only in ASCII case and
surrounding white space, and separates the concrete pair the spec
names. -/
theorem c7_normalization :
    (∀ (w1 w2 w3 w4 c1 c2 : List Char),
      (∀ c ∈ w1, goIsSpace c) → (∀ c ∈ w2, goIsSpace c) →
      (∀ c ∈ w3, goIsSpace c) → (∀ c ∈ w4, goIsSpace c) →
      c1.map goToLower = c2.map goToLower →
      normalizeGo ⟨w1 ++ c1 ++ w2⟩ = normalizeGo ⟨w3 ++ c2 ++ w4⟩) ∧
    normalizeGo " Hello " = normalizeGo "hello" ∧
    normalizeGo "Hello" ≠ normalizeGo "hello world" := by
  refine ⟨?_, by decide, by decide⟩
  intro w1 w2 w3 w4 c1 c2 h1 h2 h3 h4 hcase
  unfold normalizeGo
  have e1 : (String.mk (w1 ++ c1 ++ w2)).data = w1 ++ c1 ++ w2 := rfl
  have e2 : (String.mk (w3 ++ c2 ++ w4)).data = w3 ++ c2 ++ w4 := rfl
  rw [e1, e2, trimSpaceGo_pad w1 w2 c1 h1 h2, trimSpaceGo_pad w3 w4 c2 h3 h4]
  have : (trimSpaceGo c1).map goToLower = (trimSpaceGo c2).map goToLower := by
    rw [← trimSpaceGo_map_toLower, ← trimSpaceGo_map_toLower, hcase]
  rw [this]

/-- Exact reduced forms of the worked example's scores, to let the
kernel evaluate the model (the rational normalization behind the `0.8`
literals is not kernel-reducible). -/
def r08 : ℚ := ⟨4, 5, by norm_num, by norm_num⟩

def r02 : ℚ := ⟨1, 5, by norm_num, by norm_num⟩

theorem r08_eq : (0.8 : ℚ) = r08 := by
  rw [r08, Rat.mk'_eq_divInt, Rat.divInt_eq_div]
  norm_num

theorem r02_eq : (0.2 : ℚ) = r02 := by
  rw [r02, Rat.mk'_eq_divInt, Rat.divInt_eq_div]
  norm_num

/-- C8: on the worked five-sentence example, ascending shaping with
limit 3 yields word4, word5, word3; descending shaping with limit 3
yields word1, word2, word3 (the two equal-score entries in input
order); a nil result yields Go's nil response (`none`) and an empty
sentence list yields the empty response — both with no error. -/
theorem c8_worked_example :
    processAPIResult ctxLive (some ⟨ex5⟩) SortOrder.Ascending 3 =
      (some [("word4", -0.8), ("word5", 0), ("word3", 0.2)], none) ∧
    processAPIResult ctxLive (some ⟨ex5⟩) SortOrder.Descending 3 =
      (some [("word1", 0.8), ("word2", 0.8), ("word3", 0.2)], none) ∧
    (∀ (ord : SortOrder) (limit : Int),
      processAPIResult ctxLive none ord limit = (none, none)) ∧
    (∀ (ord : SortOrder) (limit : Int),
      processAPIResult ctxLive (some ⟨[]⟩) ord limit = (some [], none)) := by
  refine ⟨?_, ?_, ?_, ?_⟩
  · simp only [ex5, r08_eq, r02_eq]
    decide
  · simp only [ex5, r08_eq, r02_eq]
    decide
  · intro ord limit
    rfl
  · intro ord limit
    have hsort : sortSentences ord [] = [] := by cases ord <;> rfl
    simp only [processAPIResult, ctxLive, hsort, buildResp, List.length_nil]
    have h0 : (if limit < 0 then ((0 : Nat) : Int)
        else if ((0 : Nat) : Int) < limit then ((0 : Nat) : Int) else limit).toNat
        = 0 := by
      split_ifs <;> omega
    rw [h0]
    rfl

/-- The `src/sentiment.go` shaper fails at runtime on a negative limit:
`arraySize` stays negative and `make([]map[string]float32, arraySize)`
is a runtime error. -/
theorem variant_panics_on_negative_limit (ctx : Ctx) (r : AnalyzeSentimentResponse)
    (ord : SortOrder) (limit : Int) (hctx : ctx.errAtShape = none)
    (hneg : limit < 0) :
    processAPIResultVariant ctx (some r) ord limit = none := by
  simp only [processAPIResultVariant, hctx]
  rw [if_neg (show ¬ ((sortSentences ord r.sentences).length : Int) < limit by omega),
    if_pos hneg]

/-- C9: with a live context and a negative limit, the `src/sentiment.go`
variant of `processAPIResult` (no negative-limit guard) fails at
runtime instead of returning all sentences — and so does `Handle` when
it reaches the shaping step — while the `src/unnamed/part_000` variant,
whose guard maps a negative size to the full length, returns every
sentence. -/
theorem c9_variant_negative_limit (ctx : Ctx) (r : AnalyzeSentimentResponse)
    (ord : SortOrder) (limit : Int) (hctx : ctx.errAtShape = none)
    (hneg : limit < 0) :
    processAPIResultVariant ctx (some r) ord limit = none ∧
    (∃ out : Response, (processAPIResult ctx (some r) ord limit).1 = some out ∧
      out.length = r.sentences.length) ∧
    (∀ (β : Type) (marshal : AnalyzeSentimentResponse → Option β)
      (unmarshal : β → Option AnalyzeSentimentResponse)
      (cacheGet : String → Option β)
      (provider : String → Except GoErr AnalyzeSentimentResponse)
      (input : String),
      ctx.errAtStart = none →
      getCachedResult unmarshal cacheGet (normalizeGo input) = none →
      provider input = .ok r →
      Handle marshal unmarshal cacheGet provider ctx input ord limit = none) := by
  refine ⟨variant_panics_on_negative_limit ctx r ord limit hctx hneg, ?_, ?_⟩
  · simp only [processAPIResult, hctx]
    refine ⟨_, rfl, ?_⟩
    have hlen := length_sortSentences ord r.sentences
    simp only [buildResp, List.length_map, List.length_range]
    split_ifs <;> omega
  · intro β marshal unmarshal cacheGet provider input hs hmiss hprov
    simp [Handle, hs, hmiss, hprov,
      variant_panics_on_negative_limit ctx r ord limit hctx hneg]

/-- C10: the bytes written to the cache always encode the provider's
response in its original sentence order: the write happens on the fresh
path only (a cache hit writes nothing), its payload is the marshalling
of the provider's response as received — the in-place sort runs only
after the marshalling — and the requested sort order and limit never
influence it. -/
theorem c10_cached_payload_original_order (β : Type)
    (marshal : AnalyzeSentimentResponse → Option β)
    (unmarshal : β → Option AnalyzeSentimentResponse)
    (cacheGet : String → Option β)
    (provider : String → Except GoErr AnalyzeSentimentResponse)
    (ctx : Ctx) (input : String) :
    (∀ (ord1 ord2 : SortOrder) (limit1 limit2 : Int),
      (ProcessSentiment marshal unmarshal cacheGet provider ctx input ord1
          limit1).cacheSet =
        (ProcessSentiment marshal unmarshal cacheGet provider ctx input ord2
            limit2).cacheSet) ∧
    (∀ r, getCachedResult unmarshal cacheGet (normalizeGo input) = some r →
      ∀ (ord : SortOrder) (limit : Int),
        (ProcessSentiment marshal unmarshal cacheGet provider ctx input ord
            limit).cacheSet = none) ∧
    (∀ resp, ctx.errAtStart = none →
      getCachedResult unmarshal cacheGet (normalizeGo input) = none →
      provider input = .ok resp →
      ∀ (ord : SortOrder) (limit : Int),
        (ProcessSentiment marshal unmarshal cacheGet provider ctx input ord
            limit).cacheSet =
          (marshal resp).map fun respBytes => (normalizeGo input, respBytes)) := by
  refine ⟨?_, ?_, ?_⟩
  · intro ord1 ord2 limit1 limit2
    rcases hs : ctx.errAtStart with _ | e
    · rcases hhit : getCachedResult unmarshal cacheGet (normalizeGo input) with _ | r
      · rcases hprov : provider input with e | resp <;>
          simp [ProcessSentiment, hs, hhit, hprov]
      · simp [ProcessSentiment, hs, hhit]
    · simp [ProcessSentiment, hs]
  · intro r hhit ord limit
    rcases hs : ctx.errAtStart with _ | e <;>
      simp [ProcessSentiment, hs, hhit]
  · intro resp hs hmiss hprov ord limit
    simp [ProcessSentiment, hs, hmiss, hprov]

/-! ## Concrete instantiations

Shared concrete collaborators used by the witnesses: an identity codec
over `β := AnalyzeSentimentResponse`, a cold and a warm cache, a
provider answering with the worked example, and the raw input of the
repository's test suite. -/

def wMarshal : AnalyzeSentimentResponse → Option AnalyzeSentimentResponse :=
  fun r => some r

def wUnmarshal : AnalyzeSentimentResponse → Option AnalyzeSentimentResponse :=
  fun b => some b

def wBadUnmarshal : AnalyzeSentimentResponse → Option AnalyzeSentimentResponse :=
  fun _ => none

def wBadMarshal : AnalyzeSentimentResponse → Option AnalyzeSentimentResponse :=
  fun _ => none

def wColdCache : String → Option AnalyzeSentimentResponse := fun _ => none

def wWarmCache : String → Option AnalyzeSentimentResponse := fun _ => some ⟨ex5⟩

def wProvider : String → Except GoErr AnalyzeSentimentResponse :=
  fun _ => Except.ok ⟨ex5⟩

def wBadProvider : String → Except GoErr AnalyzeSentimentResponse :=
  fun _ => Except.error (GoErr.providerFailure "error")

def wInput : String := "word1 word2 word3 word4 word5"

def ctxDead : Ctx := ⟨some GoErr.canceled, some GoErr.canceled⟩

def ctxLate : Ctx := ⟨none, some GoErr.canceled⟩

theorem c1_stability_amended_witness :
    (ctxLive.errAtShape = none ∧ ex5.length ≤ 6 ∧
      (processAPIResult ctxLive (some ⟨ex5⟩) SortOrder.Descending (-1)).1 =
        some [("word1", 0.8), ("word2", 0.8), ("word3", 0.2), ("word5", 0),
          ("word4", -0.8)]) ∧
    (([("word1", (0.8 : ℚ)), ("word2", 0.8), ("word3", 0.2), ("word5", 0),
        ("word4", -0.8)].filter fun p => decide (p.2 = (0.8 : ℚ))).Sublist
      ((ex5.map toPair).filter fun p => decide (p.2 = (0.8 : ℚ)))) :=
  ⟨⟨rfl, by decide, by simp only [ex5, r08_eq, r02_eq]; decide⟩,
    c1_stability_amended ctxLive ex5 SortOrder.Descending (-1) _ rfl (by decide)
      (by simp only [ex5, r08_eq, r02_eq]; decide) 0.8⟩

theorem c2_limit_semantics_witness :
    ctxLive.errAtShape = none ∧
    ∃ out : Response,
      (processAPIResult ctxLive (some ⟨ex5⟩) SortOrder.Ascending 3).1 = some out ∧
        out.length =
          if (3 : Int) < 0 then ex5.length else min (3 : Int).toNat ex5.length :=
  ⟨rfl, c2_limit_semantics ctxLive ex5 SortOrder.Ascending 3 rfl⟩

theorem c3_cache_transparency_witness :
    (getCachedResult wUnmarshal wColdCache (normalizeGo wInput) = none ∧
      wProvider wInput = .ok ⟨ex5⟩ ∧ wMarshal ⟨ex5⟩ = some ⟨ex5⟩ ∧
      wUnmarshal ⟨ex5⟩ = some ⟨ex5⟩ ∧
      wWarmCache (normalizeGo wInput) = some ⟨ex5⟩) ∧
    ((ProcessSentiment wMarshal wUnmarshal wWarmCache wProvider ctxLive wInput
        SortOrder.Ascending 3).response =
      (ProcessSentiment wMarshal wUnmarshal wColdCache wProvider ctxLive wInput
          SortOrder.Ascending 3).response ∧
      (ProcessSentiment wMarshal wUnmarshal wWarmCache wProvider ctxLive wInput
          SortOrder.Ascending 3).providerCalls = []) :=
  ⟨⟨rfl, rfl, rfl, rfl, rfl⟩,
    c3_cache_transparency AnalyzeSentimentResponse wMarshal wUnmarshal wColdCache
      wWarmCache wProvider ctxLive ctxLive wInput wInput SortOrder.Ascending 3
      ⟨ex5⟩ ⟨ex5⟩ rfl rfl rfl rfl rfl rfl rfl rfl rfl rfl⟩

theorem c4_cancellation_witness :
    (ctxDead.errAtStart = some GoErr.canceled ∧
      ProcessSentiment wMarshal wUnmarshal wColdCache wProvider ctxDead wInput
        SortOrder.Ascending 3 = ⟨none, some GoErr.canceled, [], [], none⟩) ∧
    (ctxLate.errAtStart = none ∧ ctxLate.errAtShape = some GoErr.canceled ∧
      (ProcessSentiment wMarshal wUnmarshal wColdCache wProvider ctxLate wInput
          SortOrder.Ascending 3).response = none ∧
      (ProcessSentiment wMarshal wUnmarshal wColdCache wProvider ctxLate wInput
          SortOrder.Ascending 3).error = some GoErr.canceled) := by
  have h2 := c4_cancellation.2 AnalyzeSentimentResponse wMarshal wUnmarshal
    wColdCache wProvider ctxLate wInput SortOrder.Ascending 3 GoErr.canceled rfl rfl
    (Or.inr ⟨⟨ex5⟩, rfl⟩)
  exact ⟨⟨rfl, c4_cancellation.1 AnalyzeSentimentResponse wMarshal wUnmarshal
    wColdCache wProvider ctxDead wInput SortOrder.Ascending 3 GoErr.canceled rfl⟩,
    rfl, rfl, h2.1, h2.2⟩

theorem c5_cache_failures_self_healing_witness :
    (wWarmCache (normalizeGo wInput) = some ⟨ex5⟩ ∧ wBadUnmarshal ⟨ex5⟩ = none ∧
      ProcessSentiment wMarshal wBadUnmarshal wWarmCache wProvider ctxLive wInput
          SortOrder.Ascending 3 =
        ProcessSentiment wMarshal wBadUnmarshal (fun _ => none) wProvider ctxLive
          wInput SortOrder.Ascending 3) ∧
    (wBadMarshal ⟨ex5⟩ = none ∧
      (ProcessSentiment wBadMarshal wUnmarshal wColdCache wProvider ctxLive wInput
          SortOrder.Ascending 3).response =
        (processAPIResult ctxLive (some ⟨ex5⟩) SortOrder.Ascending 3).1 ∧
      (ProcessSentiment wBadMarshal wUnmarshal wColdCache wProvider ctxLive wInput
          SortOrder.Ascending 3).error = none ∧
      (ProcessSentiment wBadMarshal wUnmarshal wColdCache wProvider ctxLive wInput
          SortOrder.Ascending 3).cacheSet = none) ∧
    ((ProcessSentiment wMarshal wUnmarshal wColdCache wBadProvider ctxLive wInput
        SortOrder.Ascending 3).error = some (GoErr.providerFailure "error") ∧
      (ctxLive.errAtStart = some (GoErr.providerFailure "error") ∨
        ctxLive.errAtShape = some (GoErr.providerFailure "error") ∨
        wBadProvider wInput = .error (GoErr.providerFailure "error"))) := by
  have h2 := (c5_cache_failures_self_healing.2.1) AnalyzeSentimentResponse
    wBadMarshal wUnmarshal wColdCache wProvider ctxLive wInput SortOrder.Ascending 3
    ⟨ex5⟩ rfl rfl rfl rfl rfl
  exact ⟨⟨rfl, rfl, c5_cache_failures_self_healing.1 AnalyzeSentimentResponse
      wMarshal wBadUnmarshal wWarmCache wProvider ctxLive wInput SortOrder.Ascending 3
      ⟨ex5⟩ rfl rfl⟩,
    ⟨rfl, h2.1, h2.2.1, h2.2.2⟩,
    rfl, c5_cache_failures_self_healing.2.2 AnalyzeSentimentResponse wMarshal
      wUnmarshal wColdCache wBadProvider ctxLive wInput SortOrder.Ascending 3
      (GoErr.providerFailure "error") rfl⟩

theorem c6_miss_uses_raw_input_witness :
    (ctxLive.errAtStart = none ∧
      getCachedResult wUnmarshal wColdCache (normalizeGo wInput) = none) ∧
    ((ProcessSentiment wMarshal wUnmarshal wColdCache wProvider ctxLive wInput
        SortOrder.Ascending 3).providerCalls = [wInput] ∧
      (ProcessSentiment wMarshal wUnmarshal wColdCache wProvider ctxLive wInput
          SortOrder.Ascending 3).cacheGets = [normalizeGo wInput] ∧
      (∀ e, wProvider wInput = .error e →
        ProcessSentiment wMarshal wUnmarshal wColdCache wProvider ctxLive wInput
            SortOrder.Ascending 3 =
          ⟨none, some e, [wInput], [normalizeGo wInput], none⟩) ∧
      (∀ resp bz, wProvider wInput = .ok resp → wMarshal resp = some bz →
        (ProcessSentiment wMarshal wUnmarshal wColdCache wProvider ctxLive wInput
            SortOrder.Ascending 3).cacheSet = some (normalizeGo wInput, bz))) :=
  ⟨⟨rfl, rfl⟩,
    c6_miss_uses_raw_input AnalyzeSentimentResponse wMarshal wUnmarshal wColdCache
      wProvider ctxLive wInput SortOrder.Ascending 3 rfl rfl⟩

theorem c7_normalization_witness :
    ((∀ c ∈ [' '], goIsSpace c) ∧
      ("Hello".data.map goToLower = "hello".data.map goToLower)) ∧
    normalizeGo ⟨[' '] ++ "Hello".data ++ [' ']⟩ =
      normalizeGo ⟨[] ++ "hello".data ++ []⟩ :=
  ⟨⟨by decide, by decide⟩,
    c7_normalization.1 [' '] [' '] [] [] "Hello".data "hello".data (by decide)
      (by decide) (by decide) (by decide) (by decide)⟩

theorem c9_variant_negative_limit_witness :
    (ctxLive.errAtShape = none ∧ (-1 : Int) < 0) ∧
    (processAPIResultVariant ctxLive (some ⟨ex5⟩) SortOrder.Ascending (-1) = none ∧
      (∃ out : Response,
        (processAPIResult ctxLive (some ⟨ex5⟩) SortOrder.Ascending (-1)).1 =
          some out ∧ out.length = ex5.length) ∧
      (∀ (β : Type) (marshal : AnalyzeSentimentResponse → Option β)
        (unmarshal : β → Option AnalyzeSentimentResponse)
        (cacheGet : String → Option β)
        (provider : String → Except GoErr AnalyzeSentimentResponse)
        (input : String),
        ctxLive.errAtStart = none →
        getCachedResult unmarshal cacheGet (normalizeGo input) = none →
        provider input = .ok ⟨ex5⟩ →
        Handle marshal unmarshal cacheGet provider ctxLive input SortOrder.Ascending
          (-1) = none)) :=
  ⟨⟨rfl, by decide⟩,
    c9_variant_negative_limit ctxLive ⟨ex5⟩ SortOrder.Ascending (-1) rfl (by decide)⟩

theorem c10_cached_payload_original_order_witness :
    (getCachedResult wUnmarshal wWarmCache (normalizeGo wInput) = some ⟨ex5⟩ ∧
      getCachedResult wUnmarshal wColdCache (normalizeGo wInput) = none ∧
      wProvider wInput = .ok ⟨ex5⟩) ∧
    ((ProcessSentiment wMarshal wUnmarshal wColdCache wProvider ctxLive wInput
        SortOrder.Ascending 3).cacheSet =
      (ProcessSentiment wMarshal wUnmarshal wColdCache wProvider ctxLive wInput
          SortOrder.Descending (-1)).cacheSet ∧
      (ProcessSentiment wMarshal wUnmarshal wWarmCache wProvider ctxLive wInput
          SortOrder.Ascending 3).cacheSet = none ∧
      (ProcessSentiment wMarshal wUnmarshal wColdCache wProvider ctxLive wInput
          SortOrder.Ascending 3).cacheSet =
        (wMarshal ⟨ex5⟩).map fun respBytes => (normalizeGo wInput, respBytes)) := by
  have h := c10_cached_payload_original_order AnalyzeSentimentResponse wMarshal
    wUnmarshal wWarmCache wProvider ctxLive wInput
  have hcold := c10_cached_payload_original_order AnalyzeSentimentResponse wMarshal
    wUnmarshal wColdCache wProvider ctxLive wInput
  exact ⟨⟨rfl, rfl, rfl⟩,
    hcold.1 SortOrder.Ascending SortOrder.Descending 3 (-1),
    h.2.1 ⟨ex5⟩ rfl SortOrder.Ascending 3,
    hcold.2.2 ⟨ex5⟩ rfl rfl rfl SortOrder.Ascending 3⟩
